import Mathlib

/-!
Verification development for the VectorSheets repository.

The definitions below are a shallow embedding of the interpretable core:
the Mutation Engine (handleSheetAction in the application root component),
the retry backoff and terminal error classification of getAIResponse in
src/services/analyticsService.ts, the chart guard clause, and the reset
interception in handleSendMessage.  JavaScript numbers are modelled by the
type JNum (rationals extended with NaN and the two infinities); records are
insertion ordered association lists, matching JavaScript object semantics.
-/

namespace VectorSheets

/-- JavaScript number values as they occur in this program: rationals plus
NaN, Infinity and -Infinity. -/
inductive JNum where
  | q (x : ℚ)
  | nan
  | inf
  | ninf
deriving DecidableEq, Repr

/-- A spreadsheet cell value: either a JavaScript number or a string. -/
inductive Value where
  | n (x : JNum)
  | s (t : String)
deriving DecidableEq, Repr

/-- JavaScript truthiness on cell values: 0, NaN and the empty string are
falsy, everything else is truthy. -/
def Value.truthy : Value → Bool
  | .n (.q x) => decide (x ≠ 0)
  | .n .nan => false
  | .n .inf => true
  | .n .ninf => true
  | .s t => decide (t ≠ "")

/-- JavaScript addition on numbers (NaN propagates, opposite infinities give
NaN). -/
def jadd : JNum → JNum → JNum
  | .q a, .q b => .q (a + b)
  | .nan, _ => .nan
  | _, .nan => .nan
  | .inf, .ninf => .nan
  | .ninf, .inf => .nan
  | .inf, _ => .inf
  | _, .inf => .inf
  | .ninf, _ => .ninf
  | _, .ninf => .ninf

/-- JavaScript subtraction on numbers. -/
def jsub : JNum → JNum → JNum
  | .q a, .q b => .q (a - b)
  | .nan, _ => .nan
  | _, .nan => .nan
  | .inf, .inf => .nan
  | .ninf, .ninf => .nan
  | .inf, _ => .inf
  | _, .inf => .ninf
  | .ninf, _ => .ninf
  | _, .ninf => .inf

/-- JavaScript division on numbers; 0 / 0 is NaN and x / 0 for nonzero x is
a signed infinity. -/
def jdiv : JNum → JNum → JNum
  | .nan, _ => .nan
  | _, .nan => .nan
  | .inf, .inf => .nan
  | .inf, .ninf => .nan
  | .ninf, .inf => .nan
  | .ninf, .ninf => .nan
  | .inf, .q b => if b < 0 then .ninf else .inf
  | .ninf, .q b => if b < 0 then .inf else .ninf
  | .q _, .inf => .q 0
  | .q _, .ninf => .q 0
  | .q a, .q b =>
      if b = 0 then (if a = 0 then .nan else if 0 < a then .inf else .ninf)
      else .q (a / b)

/-- The JavaScript strict less-than comparison on numbers; any comparison
against NaN is false. -/
def jltB : JNum → JNum → Bool
  | .nan, _ => false
  | _, .nan => false
  | .ninf, .ninf => false
  | .ninf, _ => true
  | _, .ninf => false
  | .inf, _ => false
  | .q _, .inf => true
  | .q a, .q b => decide (a < b)

/-- JavaScript strict greater-than, defined by swapping the arguments. -/
def jgtB (a b : JNum) : Bool := jltB b a

/-- Binary minimum as used by Math.min: NaN propagates. -/
def jmin2 : JNum → JNum → JNum
  | .nan, _ => .nan
  | _, .nan => .nan
  | .inf, b => b
  | a, .inf => a
  | .ninf, _ => .ninf
  | _, .ninf => .ninf
  | .q a, .q b => .q (min a b)

/-- Binary maximum as used by Math.max: NaN propagates. -/
def jmax2 : JNum → JNum → JNum
  | .nan, _ => .nan
  | _, .nan => .nan
  | .ninf, b => b
  | a, .ninf => a
  | .inf, _ => .inf
  | _, .inf => .inf
  | .q a, .q b => .q (max a b)

/-- Parse a run of decimal digits into a natural number, or fail. -/
def digitsToNat : List Char → Option Nat
  | [] => none
  | cs => cs.foldl (fun acc c =>
      match acc with
      | none => none
      | some n => if c.isDigit then some (n * 10 + (c.toNat - 48)) else none)
      (some 0)

/-- Lower-case a string character by character, the behaviour of
toLowerCase on the ASCII inputs this program handles. -/
def jsToLower (s : String) : String := String.mk (s.data.map Char.toLower)

/-- Upper-case a string character by character. -/
def jsToUpper (s : String) : String := String.mk (s.data.map Char.toUpper)

/-- The whitespace characters stripped by trim, restricted to the ASCII
whitespace this program can encounter. -/
def isWS (c : Char) : Bool := c = ' ' || c = '\t' || c = '\n' || c = '\r'

/-- Model of String.prototype.trim: drop leading and trailing whitespace. -/
def jsTrim (s : String) : String :=
  String.mk (((s.data.dropWhile isWS).reverse.dropWhile isWS).reverse)

/-- Model of the JavaScript Number(string) conversion, restricted to the
integer literals this program feeds it: surrounding whitespace is trimmed,
the empty string converts to 0, an optionally signed digit run converts to
the corresponding integer, and everything else converts to NaN.  Decimal
points, exponents and hexadecimal forms are not modelled; no claim
exercises them. -/
def strToNum (t : String) : JNum :=
  let u := jsTrim t
  if u = "" then .q 0
  else
    match u.data with
    | '-' :: rest =>
        match digitsToNat rest with
        | some n => .q (-(n : ℚ))
        | none => .nan
    | '+' :: rest =>
        match digitsToNat rest with
        | some n => .q (n : ℚ)
        | none => .nan
    | ds =>
        match digitsToNat ds with
        | some n => .q (n : ℚ)
        | none => .nan

/-- Does the character list start with the given pattern list. -/
def startsWithL : List Char → List Char → Bool
  | _, [] => true
  | [], _ :: _ => false
  | t :: ts, p :: ps => t = p && startsWithL ts ps

/-- Does the character list contain the pattern list as a contiguous run. -/
def containsL : List Char → List Char → Bool
  | [], pat => pat.isEmpty
  | t :: ts, pat => startsWithL (t :: ts) pat || containsL ts pat

/-- Model of String.prototype.includes. -/
def jsIncludes (s pat : String) : Bool := containsL s.data pat.data

/-- Render a natural number with comma thousand separators, building the
digit string from the right. -/
def groupDigits (cs : List Char) : List Char :=
  let rec go : List Char → Nat → List Char
    | [], _ => []
    | c :: rest, k =>
        if k ≠ 0 && k % 3 = 0 then c :: ',' :: go rest (k + 1)
        else c :: go rest (k + 1)
  (go cs.reverse 0).reverse

/-- Model of Number.prototype.toLocaleString, exact for the integers the
claims exercise: comma grouped decimal digits with a leading minus sign;
NaN and the infinities render as their JavaScript names.  Non-integer
rationals fall back to the plain decimal-free rendering of Rat and are not
exercised by any claim. -/
def jsLocale : JNum → String
  | .nan => "NaN"
  | .inf => "Infinity"
  | .ninf => "-Infinity"
  | .q x =>
      if x.den = 1 then
        (if x.num < 0 then "-" else "") ++
          String.mk (groupDigits (toString x.num.natAbs).data)
      else toString x

/-- Model of the JavaScript String(value) conversion on an optional cell
value; undefined renders as the string undefined. -/
def jsString : Option Value → String
  | none => "undefined"
  | some (.s t) => t
  | some (.n x) =>
      match x with
      | .nan => "NaN"
      | .inf => "Infinity"
      | .ninf => "-Infinity"
      | .q v =>
          if v.den = 1 then (if v.num < 0 then "-" else "") ++ toString v.num.natAbs
          else toString v

/-- One spreadsheet Record: a JavaScript object modelled as an insertion
ordered association list from column name to value. -/
abbrev Record := List (String × Value)

/-- Property read on a record: the value at the first occurrence of the
key, or none when the key is absent (undefined in JavaScript). -/
def jsGet : Record → String → Option Value
  | [], _ => none
  | (k, v) :: r, c => if k = c then some v else jsGet r c

/-- Property write on a record: replace the value at an existing key in
place, or append the key at the end, exactly the JavaScript semantics of
both direct assignment and spread override. -/
def setKey : Record → String → Value → Record
  | [], k, v => [(k, v)]
  | (k1, v1) :: r, k, v =>
      if k1 = k then (k1, v) :: r else (k1, v1) :: setKey r k v

/-- Property deletion on a record, the JavaScript delete operator. -/
def delKey : Record → String → Record
  | [], _ => []
  | (k1, v1) :: r, k => if k1 = k then delKey r k else (k1, v1) :: delKey r k

/-- Does the record carry the given column. -/
def hasCol (r : Record) (c : String) : Bool := (jsGet r c).isSome

/-- Coercion of an optional cell value to a JavaScript number, as the
relational operators perform on the non-string branch of the sort
comparator: undefined converts to NaN, strings convert via Number. -/
def toJN : Option Value → JNum
  | none => .nan
  | some (.n x) => x
  | some (.s t) => strToNum t

/-- Model of localeCompare, restricted to the default ordering on the
plain ASCII strings this spreadsheet holds: code point comparison mapped
to the sign convention of the source. -/
def localeCmp (x y : String) : Int :=
  if x < y then -1 else if y < x then 1 else 0

/-- The comparator of the sort_data case: string pairs compare with
localeCompare, every other pair through the JavaScript relational
operators after numeric coercion. -/
def sortCmp (col : String) (a b : Record) : Int :=
  let va := jsGet a col
  let vb := jsGet b col
  match va, vb with
  | some (.s x), some (.s y) => localeCmp x y
  | _, _ =>
      if jgtB (toJN va) (toJN vb) then 1
      else if jltB (toJN va) (toJN vb) then -1 else 0

/-- The sort_data mutation on the dataset: a stable sort by the comparator,
negated when the requested order is not ascending.  Array.prototype.sort is
required to be stable by the language specification and is modelled by
mergeSort. -/
def sortData (col : String) (ascending : Bool) (d : List Record) : List Record :=
  d.mergeSort (fun a b =>
    decide ((if ascending then sortCmp col a b else -sortCmp col a b) ≤ 0))

/-- The numeric values of a column, in row order: the map over the column
followed by the typeof number filter of the aggregate case. -/
def numValues (d : List Record) (col : String) : List JNum :=
  d.filterMap (fun r =>
    match jsGet r col with
    | some (.n x) => some x
    | _ => none)

/-- JavaScript truthiness of the optional string arguments guarding the
aggregate filter. -/
def strTruthy : Option String → Bool
  | none => false
  | some t => decide (t ≠ "")

/-- The dataset actually aggregated: filtered by case-insensitive exact
match on the filter column when both filter arguments are truthy. -/
def aggData (d : List Record) (filterColumn filterValue : Option String) : List Record :=
  if strTruthy filterColumn && strTruthy filterValue then
    d.filter (fun r =>
      jsToLower (jsString (jsGet r (filterColumn.getD ""))) == jsToLower (filterValue.getD ""))
  else d

/-- The numeric result of the calculate_aggregate case; the result variable
is initialised to 0 and left untouched by an unrecognised operation. -/
def calcAggregate (d : List Record) (col : String) (operation : String)
    (filterColumn filterValue : Option String) : JNum :=
  let values := numValues (aggData d filterColumn filterValue) col
  match operation with
  | "sum" => values.foldl jadd (.q 0)
  | "average" => jdiv (values.foldl jadd (.q 0)) (.q (values.length : ℚ))
  | "min" => values.foldr jmin2 .inf
  | "max" => values.foldr jmax2 .ninf
  | "count" => .q (values.length : ℚ)
  | _ => .q 0

/-- One entry of the updates argument of batch_update. -/
structure CellUpdate where
  rowIndex : Int
  column : String
  value : String
deriving DecidableEq, Repr

/-- The body of the batch_update loop: one update applied to the evolving
copy of the dataset, guarded by the truthiness of the element at its row
index, which for a record element is an in-bounds check; the raw string
value is stored without numeric parsing. -/
def applyCellUpdate (acc : List Record) (u : CellUpdate) : List Record :=
  if 0 ≤ u.rowIndex ∧ u.rowIndex.toNat < acc.length then
    acc.set u.rowIndex.toNat (setKey (acc.getD u.rowIndex.toNat []) u.column (.s u.value))
  else acc

/-- The batch_update fold: each update is applied in listed order to the
evolving copy of the dataset. -/
def batchUpdateData (updates : List CellUpdate) (d : List Record) : List Record :=
  updates.foldl applyCellUpdate d

/-- The delete_rows filter over indices: keep each row whose position is
not listed. -/
def deleteRowsData (rowIndices : List Int) (i : Nat) : List Record → List Record
  | [] => []
  | r :: rs =>
      if rowIndices.contains (i : Int) then deleteRowsData rowIndices (i + 1) rs
      else r :: deleteRowsData rowIndices (i + 1) rs

/-- The fresh record built by the add_row case, always the six fixed
columns of the SpreadsheetRow interface. -/
def newRowOf (month product region : String) (sales cost profit : JNum) : Record :=
  [("month", .s month), ("product", .s product), ("region", .s region),
   ("sales", .n sales), ("cost", .n cost), ("profit", .n profit)]

/-- Reading an array element for the spread copy of the update_cell case:
out of bounds reads give undefined whose spread is the empty object. -/
def jsRowAt (d : List Record) (i : Int) : Record :=
  if 0 ≤ i ∧ i.toNat < d.length then d.getD i.toNat [] else []

/-- Writing an array element at an arbitrary integer index, the JavaScript
array semantics: a negative index only sets an ordinary property and leaves
the array untouched, an index below the length replaces the element, and an
index at or past the length extends the array to that index, creating holes
in between; the holes are modelled as empty records. -/
def jsSetRowAt (d : List Record) (i : Int) (r : Record) : List Record :=
  if i < 0 then d
  else if i.toNat < d.length then d.set i.toNat r
  else d ++ List.replicate (i.toNat - d.length) [] ++ [r]

/-- The value stored by update_cell: the three numeric columns of the fixed
schema parse the incoming string through Number, every other column stores
the raw string. -/
def updateCellValue (column value : String) : Value :=
  if column = "sales" ∨ column = "cost" ∨ column = "profit" then .n (strToNum value)
  else .s value

/-- The structured actions of the function call catalog, one variant per
operation name, plus a variant for a name outside the catalog. -/
inductive Action where
  | sort_data (column : String) (order : String)
  | calculate_aggregate (column : String) (operation : String)
      (filterColumn filterValue : Option String)
  | filter_data (column : String) (value : String)
  | add_row (month product region : String) (sales cost profit : JNum)
  | update_cell (rowIndex : Int) (column : String) (value : String)
  | find_top_n (column : String) (n : Nat)
  | generate_chart (chartType title : String)
  | delete_rows (rowIndices : List Int)
  | delete_columns (columnNames : List String)
  | clear_filter
  | add_column (columnName : String) (defaultValue : Option Value)
  | batch_update (updates : List CellUpdate)
  | rename_sheet (newName : String)
  | duplicate_sheet (newName : String)
  | pivot_table
  | create_chart
  | format_cells
  | merge_cells
  | apply_formula
  | unknown (name : String)
deriving DecidableEq, Repr

/-- The application state touched by the Mutation Engine: the dataset, the
chat transcript as role and content pairs, the transient notification with
its type tag, the bounded history log, filter and sort state, the chart
descriptor, the sheet tabs, and the developer console output. -/
structure AppState where
  sheetData : List Record
  originalData : List Record
  messages : List (String × String)
  notification : Option (String × String)
  history : List (String × String)
  filterState : Option String × String
  sortState : Option String × Option String
  chartData : Option (String × String)
  sheets : List String
  activeSheet : String
  consoleLogs : List String
deriving DecidableEq, Repr

/-- The showNotification helper: set the transient toast. -/
def showNotification (s : AppState) (msg ty : String) : AppState :=
  { s with notification := some (msg, ty) }

/-- The addToHistory helper: prepend one entry and keep at most fifty. -/
def addToHistory (s : AppState) (action description : String) : AppState :=
  { s with history := ((action, description) :: s.history).take 50 }

/-- Append one chat turn. -/
def pushMsg (s : AppState) (role content : String) : AppState :=
  { s with messages := s.messages ++ [(role, content)] }

/-- The defaultValue or empty string fallback of the add_column case. -/
def jsOrEmpty : Option Value → Value
  | none => .s ""
  | some v => if v.truthy then v else .s ""

/-- The order string of a sort action mapped onto the sortState field. -/
def sortOrderTag (order : String) : String :=
  if order = "ascending" then "asc" else "desc"

/-- The per-row text of the find_top_n confirmation message. -/
def topNLine (col : String) (idx : Nat) (r : Record) : String :=
  toString (idx + 1) ++ ". " ++ jsString (jsGet r "product") ++ " (" ++
    jsString (jsGet r "region") ++ ") - " ++ col ++ ": " ++ jsLocale (toJN (jsGet r col))

/-- The Mutation Engine: the handleSheetAction dispatch translated case by
case from the application root component.  Wall clock driven fields of a
history entry (identifier and timestamp) are not modelled. -/
def handleSheetAction (action : Action) (s : AppState) : AppState :=
  match action with
  | .sort_data column order =>
      let s1 := { s with
        sheetData := sortData column (order = "ascending") s.sheetData,
        sortState := (some column, some (sortOrderTag order)) }
      let s2 := addToHistory s1 "sort" ("Sorted by " ++ column ++ " " ++ order)
      let s3 := showNotification s2 ("Sorted by " ++ column ++ " " ++ order) "success"
      pushMsg s3 "assistant" ("Sorted by " ++ column ++ " in " ++ order ++ " order.")
  | .calculate_aggregate col operation filterColumn filterValue =>
      let result := calcAggregate s.sheetData col operation filterColumn filterValue
      let filterText :=
        if strTruthy filterColumn then
          " (filtered by " ++ filterColumn.getD "" ++ "=" ++
            (match filterValue with | some t => t | none => "undefined") ++ ")"
        else ""
      let s1 := addToHistory s "calculate" (operation ++ " of " ++ col ++ filterText)
      pushMsg s1 "assistant"
        (jsToUpper operation ++ " of " ++ col ++ filterText ++ ": " ++ jsLocale result)
  | .filter_data column value =>
      let filtered := s.sheetData.filter (fun r =>
        jsIncludes (jsToLower (jsString (jsGet r column))) (jsToLower value))
      let s1 := { s with sheetData := filtered, filterState := (some column, value) }
      let s2 := addToHistory s1 "filter" ("Filtered " ++ column ++ " by " ++ value)
      let s3 := showNotification s2
        ("Filtered: " ++ toString filtered.length ++ " rows found") "success"
      pushMsg s3 "assistant"
        ("Filtered data: Found " ++ toString filtered.length ++ " rows where " ++
          column ++ " contains " ++ value ++ ".")
  | .add_row month product region sales cost profit =>
      let newRow := newRowOf month product region sales cost profit
      let s1 := { s with sheetData := s.sheetData ++ [newRow] }
      let s2 := addToHistory s1 "add_row" ("Added " ++ product)
      let s3 := showNotification s2 "Row added successfully" "success"
      pushMsg s3 "assistant" ("Added new row: " ++ product ++ " in " ++ region)
  | .update_cell rowIndex column value =>
      let row := setKey (jsRowAt s.sheetData rowIndex) column (updateCellValue column value)
      let s1 := { s with sheetData := jsSetRowAt s.sheetData rowIndex row }
      let s2 := addToHistory s1 "update" ("Updated row " ++ toString (rowIndex + 1))
      let s3 := showNotification s2 "Cell updated" "success"
      pushMsg s3 "assistant"
        ("Updated row " ++ toString (rowIndex + 1) ++ ": " ++ column ++ " = " ++ value)
  | .find_top_n column n =>
      let sorted := s.sheetData.mergeSort (fun a b =>
        !(jgtB (jsub (toJN (jsGet b column)) (toJN (jsGet a column))) (.q 0)))
      let topN := sorted.take n
      let topList := String.intercalate "\n"
        (topN.enum.map (fun p => topNLine column p.1 p.2))
      let s1 := addToHistory s "top_n" ("Found top " ++ toString n ++ " by " ++ column)
      pushMsg s1 "assistant"
        ("Top " ++ toString n ++ " by " ++ column ++ ":\n\n" ++ topList)
  | .generate_chart chartType title =>
      let s1 := { s with chartData := some (chartType, title) }
      let s2 := addToHistory s1 "generate_chart" ("Generated a " ++ chartType ++ " chart")
      let s3 := showNotification s2 "Chart generated successfully" "success"
      pushMsg s3 "assistant"
        ("Generated a " ++ chartType ++ " chart titled " ++ title ++ ".")
  | .delete_rows rowIndices =>
      let s1 := { s with sheetData := deleteRowsData rowIndices 0 s.sheetData }
      let s2 := addToHistory s1 "delete_rows"
        ("Deleted " ++ toString rowIndices.length ++ " rows")
      let s3 := showNotification s2 (toString rowIndices.length ++ " rows deleted") "success"
      pushMsg s3 "assistant" ("Deleted " ++ toString rowIndices.length ++ " rows.")
  | .delete_columns columnNames =>
      let s1 := { s with sheetData := s.sheetData.map (fun r =>
        columnNames.foldl delKey r) }
      let joined := String.intercalate ", " columnNames
      let s2 := addToHistory s1 "delete_columns" ("Deleted columns: " ++ joined)
      let s3 := showNotification s2 ("Deleted columns: " ++ joined) "success"
      pushMsg s3 "assistant" ("Deleted columns: " ++ joined ++ ".")
  | .clear_filter =>
      let s1 := { s with filterState := (none, "") }
      let s2 := addToHistory s1 "clear_filter" "Cleared all filters"
      let s3 := showNotification s2 "Filters cleared" "success"
      pushMsg s3 "assistant" "Cleared all filters."
  | .add_column columnName defaultValue =>
      let v := jsOrEmpty defaultValue
      let s1 := { s with sheetData := s.sheetData.map (fun r => setKey r columnName v) }
      let s2 := addToHistory s1 "add_column" ("Added column: " ++ columnName)
      let s3 := showNotification s2 ("Added column: " ++ columnName) "success"
      pushMsg s3 "assistant" ("Added column: " ++ columnName ++ ".")
  | .batch_update updates =>
      let s1 := { s with sheetData := batchUpdateData updates s.sheetData }
      let s2 := addToHistory s1 "batch_update"
        ("Updated " ++ toString updates.length ++ " cells")
      let s3 := showNotification s2
        ("Updated " ++ toString updates.length ++ " cells") "success"
      pushMsg s3 "assistant" ("Updated " ++ toString updates.length ++ " cells.")
  | .rename_sheet newName =>
      match s.sheets.findIdx? (· = s.activeSheet) with
      | some i =>
          let s1 := { s with sheets := s.sheets.set i newName, activeSheet := newName }
          let s2 := addToHistory s1 "rename_sheet" ("Renamed sheet to " ++ newName)
          let s3 := showNotification s2 ("Renamed sheet to " ++ newName) "success"
          pushMsg s3 "assistant" ("Renamed sheet to " ++ newName ++ ".")
      | none => s
  | .duplicate_sheet newName =>
      let s1 := { s with sheets := s.sheets ++ [newName], activeSheet := newName }
      let s2 := addToHistory s1 "duplicate_sheet" ("Duplicated sheet to " ++ newName)
      let s3 := showNotification s2 ("Duplicated sheet to " ++ newName) "success"
      pushMsg s3 "assistant" ("Duplicated sheet to " ++ newName ++ ".")
  | .pivot_table =>
      let s1 := { s with consoleLogs := s.consoleLogs ++ ["Pivot table data:"] }
      let s2 := addToHistory s1 "pivot_table" "Generated a pivot table"
      let s3 := showNotification s2 "Pivot table generated" "success"
      pushMsg s3 "assistant" "Generated a pivot table."
  | .create_chart =>
      let s1 := { s with consoleLogs := s.consoleLogs ++ ["Chart data:"] }
      let s2 := addToHistory s1 "create_chart" "Generated a chart"
      let s3 := showNotification s2 "Chart generated" "success"
      pushMsg s3 "assistant" "Generated a chart."
  | .format_cells =>
      let s1 := { s with consoleLogs := s.consoleLogs ++ ["Format data:"] }
      let s2 := addToHistory s1 "format_cells" "Formatted cells"
      let s3 := showNotification s2 "Cells formatted" "success"
      pushMsg s3 "assistant" "Formatted cells."
  | .merge_cells =>
      let s1 := { s with consoleLogs := s.consoleLogs ++ ["Merge data:"] }
      let s2 := addToHistory s1 "merge_cells" "Merged cells"
      let s3 := showNotification s2 "Cells merged" "success"
      pushMsg s3 "assistant" "Merged cells."
  | .apply_formula =>
      let s1 := { s with consoleLogs := s.consoleLogs ++ ["Formula data:"] }
      let s2 := addToHistory s1 "apply_formula" "Applied a formula"
      let s3 := showNotification s2 "Formula applied" "success"
      pushMsg s3 "assistant" "Applied a formula."
  | .unknown name =>
      { s with consoleLogs := s.consoleLogs ++ ["Unknown action: " ++ name] }

/-- MAX_RETRIES of the resilience wrapper in src/services/analyticsService.ts. -/
def MAX_RETRIES : ℕ := 3

/-- BASE_DELAY in milliseconds. -/
def BASE_DELAY : ℚ := 2000

/-- MAX_DELAY in milliseconds. -/
def MAX_DELAY : ℚ := 32000

/-- The deterministic part of getRetryDelay: the capped exponential term. -/
def exponentialDelay (attempt : ℕ) : ℚ :=
  min (BASE_DELAY * 2 ^ attempt) MAX_DELAY

/-- getRetryDelay with the call to Math.random made explicit: the argument
r is the random sample in the unit interval, so the jitter term is r times
1000 milliseconds. -/
def getRetryDelay (attempt : ℕ) (r : ℚ) : ℚ :=
  exponentialDelay attempt + r * 1000

/-- Is the caught error retriable, per the substring tests of the retry
loop. -/
def isRetriableError (msg : String) : Bool :=
  jsIncludes msg "503" || jsIncludes msg "overloaded" ||
    jsIncludes msg "429" || jsIncludes msg "rate limit"

/-- The terminal error classification at the end of getAIResponse: the
errorType string paired with the canRetry flag, produced by the
if-else-if chain over substrings of the final error message. -/
def classifyError (msg : String) : String × Bool :=
  if jsIncludes msg "503" || jsIncludes msg "overloaded" then ("network", true)
  else if jsIncludes msg "429" then ("rate_limit", true)
  else if jsIncludes msg "quota" then ("quota", false)
  else if jsIncludes msg "API key" || jsIncludes msg "401" || jsIncludes msg "403" then
    ("auth", false)
  else if jsIncludes msg "network" || jsIncludes msg "fetch" then ("network", true)
  else ("unknown", false)

/-- The chart guard predicate of getAIResponse: the lowercased utterance
mentions chart but none of the three supported chart kinds. -/
def chartGuard (input : String) : Bool :=
  jsIncludes (jsToLower input) "chart" &&
    !jsIncludes (jsToLower input) "bar" &&
    !jsIncludes (jsToLower input) "line" &&
    !jsIncludes (jsToLower input) "pie"

/-- The outcomes of the synchronous prefix of getAIResponse, everything
that happens before the retry loop can issue the first model call.  The
first two constructors return a plain text response carrying no action;
callModel stands for entering the retry loop. -/
inductive GatewayPre where
  | apiKeyWarning
  | clarifyChart (text : String)
  | callModel
deriving DecidableEq, Repr

/-- The synchronous prefix of getAIResponse: the API key check, then the
chart guard, then the retry loop. -/
def getAIResponsePre (apiKeyConfigured : Bool) (input : String) : GatewayPre :=
  if !apiKeyConfigured then .apiKeyWarning
  else if chartGuard input then
    .clarifyChart "What type of chart would you like to generate? (e.g., bar, line, pie)"
  else .callModel

/-- The outcomes of the synchronous prefix of handleSendMessage: the empty
input early return, the reset interception, or proceeding to the gateway
call. -/
inductive SendOutcome where
  | emptyInput
  | resetDone
  | callGateway
deriving DecidableEq, Repr

/-- The synchronous prefix of handleSendMessage in the application root
component: empty trimmed input returns at once; otherwise the chart is
cleared and the lowercased trimmed input is compared against reset, which
restores the original data, clears filter and sort state, records history,
shows a notification and appends the two chat turns, returning before any
gateway call. -/
def handleSendMessagePre (input : String) (s : AppState) : SendOutcome × AppState :=
  if jsTrim input = "" then (.emptyInput, s)
  else
    let s0 := { s with chartData := none }
    if jsTrim (jsToLower input) = "reset" then
      let s1 := { s0 with
        sheetData := s0.originalData,
        filterState := (none, ""),
        sortState := (none, none) }
      let s2 := addToHistory s1 "reset" "Reset data to original"
      let s3 := showNotification s2 "Data reset successfully" "success"
      (.resetDone,
        { s3 with messages := s3.messages ++
            [("user", input), ("assistant", "Data reset to original state.")] })
    else (.callGateway, s0)

/-- Column set homogeneity: every pair of records of the dataset carries
exactly the same columns. -/
def Homogeneous (d : List Record) : Prop :=
  ∀ r1 ∈ d, ∀ r2 ∈ d, ∀ c : String, hasCol r1 c = hasCol r2 c

/-- The six columns of the fixed SpreadsheetRow schema. -/
def sixCols : List String := ["month", "product", "region", "sales", "cost", "profit"]

/-- The side conditions under which an action preserves column
homogeneity: add_row needs the dataset to still carry exactly the fixed
schema, update_cell needs an in-bounds index and an existing column (a
negative index leaves the array untouched), batch_update needs every
targeted column to exist already; every other action is unconditional. -/
def ColSafe : Action → List Record → Prop
  | .add_row _ _ _ _ _ _, d => ∀ r ∈ d, ∀ c, hasCol r c = sixCols.contains c
  | .update_cell i c _, d =>
      i < 0 ∨ (0 ≤ i ∧ i.toNat < d.length ∧ ∀ r ∈ d, hasCol r c = true)
  | .batch_update us, d => ∀ u ∈ us, ∀ r ∈ d, hasCol r u.column = true
  | _, _ => True

/-- A three row demonstration dataset matching the sum-with-filter
scenario of the spec. -/
def demoRows : List Record :=
  [[("region", .s "North"), ("sales", .n (.q 100))],
   [("region", .s "South"), ("sales", .n (.q 200))],
   [("region", .s "East"), ("sales", .n (.q 300))]]

/-- A base application state around the demonstration dataset. -/
def demoState : AppState :=
  { sheetData := demoRows
    originalData := demoRows
    messages := []
    notification := none
    history := []
    filterState := (none, "")
    sortState := (none, none)
    chartData := none
    sheets := ["Sheet1", "Sheet2"]
    activeSheet := "Sheet1"
    consoleLogs := [] }

/-- A two row dataset with a single shared column, used to exhibit the
homogeneity violation. -/
def twoRows : List Record :=
  [[("sales", .n (.q 100))], [("sales", .n (.q 200))]]

/-- State around the two row dataset. -/
def twoRowState : AppState := { demoState with sheetData := twoRows, originalData := twoRows }

/-- A single row state for the batch_update ordering scenario and the
update_cell out of bounds scenario. -/
def oneRowState : AppState :=
  { demoState with
    sheetData := [[("region", .s "North"), ("sales", .n (.q 100))]],
    originalData := [[("region", .s "North"), ("sales", .n (.q 100))]] }

/-- The two tied records of the stability example: both carry x equal to 1
and distinct id tags. -/
def tiedRowA : Record := [("x", .n (.q 1)), ("id", .s "a")]

/-- Second tied record. -/
def tiedRowB : Record := [("x", .n (.q 1)), ("id", .s "b")]

/-- State around the two tied records. -/
def tiedState : AppState :=
  { demoState with sheetData := [tiedRowA, tiedRowB], originalData := [tiedRowA, tiedRowB] }

/-- Array element read composed with property read, for stating the
batch_update ordering result. -/
def getCell (d : List Record) (i : Nat) (c : String) : Option Value :=
  jsGet (d.getD i []) c

/-- Every record of the dataset holds a string value in the column: the
shape of a text column of the data model. -/
def StrCol (d : List Record) (col : String) : Prop :=
  ∀ r ∈ d, ∃ t, jsGet r col = some (.s t)

/-- Every record of the dataset holds a finite numeric value in the
column: the shape of a numeric column of the data model. -/
def NumCol (d : List Record) (col : String) : Prop :=
  ∀ r ∈ d, ∃ x : ℚ, jsGet r col = some (.n (.q x))

/-- The string sort key of a record in a text column. -/
def strKey (col : String) (r : Record) : String :=
  match jsGet r col with
  | some (.s t) => t
  | _ => ""

/-- The numeric sort key of a record in a numeric column. -/
def numKey (col : String) (r : Record) : ℚ :=
  match jsGet r col with
  | some (.n (.q x)) => x
  | _ => 0

theorem jsGet_setKey_self (r : Record) (k : String) (v : Value) :
    jsGet (setKey r k v) k = some v := by
  induction r with
  | nil => simp [setKey, jsGet]
  | cons p r ih =>
      obtain ⟨k1, v1⟩ := p
      by_cases h : k1 = k
      · simp [setKey, h, jsGet]
      · simp [setKey, h, jsGet, ih]

theorem jsGet_setKey_ne (r : Record) (k c : String) (v : Value) (h : c ≠ k) :
    jsGet (setKey r k v) c = jsGet r c := by
  have hk : ¬ k = c := fun hkc => h hkc.symm
  induction r with
  | nil => simp [setKey, jsGet, hk]
  | cons p r ih =>
      obtain ⟨k1, v1⟩ := p
      by_cases h1 : k1 = k
      · subst h1
        simp [setKey, jsGet, hk]
      · simp only [setKey, if_neg h1, jsGet]
        by_cases h2 : k1 = c
        · simp [h2]
        · simp [h2, ih]

theorem hasCol_setKey (r : Record) (k c : String) (v : Value) :
    hasCol (setKey r k v) c = (hasCol r c || c == k) := by
  by_cases h : c = k
  · subst h
    simp [hasCol, jsGet_setKey_self]
  · simp [hasCol, jsGet_setKey_ne r k c v h, h]

theorem hasCol_setKey_of_present (r : Record) (k c : String) (v : Value)
    (h : hasCol r k = true) : hasCol (setKey r k v) c = hasCol r c := by
  rw [hasCol_setKey]
  by_cases hc : c = k
  · subst hc
    simp [h]
  · simp [hc]

theorem jsGet_delKey (r : Record) (k c : String) :
    jsGet (delKey r k) c = if c = k then none else jsGet r c := by
  induction r with
  | nil => simp [delKey, jsGet]
  | cons p r ih =>
      obtain ⟨k1, v1⟩ := p
      by_cases h1 : k1 = k
      · subst h1
        rw [delKey, if_pos rfl, ih]
        by_cases h2 : c = k1
        · simp [h2]
        · have h3 : ¬ k1 = c := fun hh => h2 hh.symm
          simp [h2, jsGet, h3]
      · rw [delKey, if_neg h1]
        by_cases h2 : k1 = c
        · have hck : ¬ c = k := fun hh => h1 (h2.trans hh)
          simp [jsGet, h2, hck]
        · simp [jsGet, h2, ih]

theorem hasCol_delKey (r : Record) (k c : String) :
    hasCol (delKey r k) c = (hasCol r c && !(c == k)) := by
  rw [hasCol, jsGet_delKey]
  by_cases h : c = k
  · simp [h]
  · simp [h, hasCol]

theorem hasCol_delKeyFold (names : List String) :
    ∀ (r : Record) (c : String),
      hasCol (names.foldl delKey r) c = (hasCol r c && !names.contains c) := by
  induction names with
  | nil => simp
  | cons k ks ih =>
      intro r c
      rw [List.foldl_cons, ih, hasCol_delKey]
      by_cases h : c = k
      · subst h
        simp
      · have hd : decide (c = k) = false := by simp [h]
        have hb : (c == k) = false := by simp [h]
        simp [hd, hb, List.contains_cons]

theorem hasCol_newRowOf (m p rg : String) (sa co pr : JNum) (c : String) :
    hasCol (newRowOf m p rg sa co pr) c = sixCols.contains c := by
  simp only [newRowOf, hasCol, jsGet, sixCols, List.contains_cons,
    List.contains_nil]
  by_cases h1 : c = "month"
  · simp [h1]
  by_cases h2 : c = "product"
  · simp [h1, h2, Ne.symm h1]
  by_cases h3 : c = "region"
  · simp [h1, h2, h3, Ne.symm h1, Ne.symm h2]
  by_cases h4 : c = "sales"
  · simp [h1, h2, h3, h4, Ne.symm h1, Ne.symm h2, Ne.symm h3]
  by_cases h5 : c = "cost"
  · simp [h1, h2, h3, h4, h5, Ne.symm h1, Ne.symm h2, Ne.symm h3, Ne.symm h4]
  by_cases h6 : c = "profit"
  · simp [h1, h2, h3, h4, h5, h6, Ne.symm h1, Ne.symm h2, Ne.symm h3, Ne.symm h4,
      Ne.symm h5]
  · simp [h1, h2, h3, h4, h5, h6, Ne.symm h1, Ne.symm h2, Ne.symm h3, Ne.symm h4,
      Ne.symm h5, Ne.symm h6]

theorem homogeneous_of_subset {d d2 : List Record}
    (hsub : ∀ r ∈ d2, r ∈ d) (h : Homogeneous d) : Homogeneous d2 :=
  fun r1 h1 r2 h2 c => h r1 (hsub r1 h1) r2 (hsub r2 h2) c

theorem homogeneous_map {d : List Record} {f : Record → Record}
    {t : String → Bool → Bool}
    (hf : ∀ r ∈ d, ∀ c, hasCol (f r) c = t c (hasCol r c))
    (h : Homogeneous d) : Homogeneous (d.map f) := by
  intro r1 h1 r2 h2 c
  obtain ⟨a, ha, rfl⟩ := List.mem_map.mp h1
  obtain ⟨b, hb, rfl⟩ := List.mem_map.mp h2
  rw [hf a ha c, hf b hb c, h a ha b hb c]

theorem deleteRowsData_subset (idxs : List Int) :
    ∀ (i : Nat) (d : List Record), ∀ r ∈ deleteRowsData idxs i d, r ∈ d := by
  intro i d
  induction d generalizing i with
  | nil => simp [deleteRowsData]
  | cons a d ih =>
      intro r hr
      rw [deleteRowsData] at hr
      split at hr
      · exact List.mem_cons_of_mem a (ih (i + 1) r hr)
      · rcases List.mem_cons.mp hr with h1 | h1
        · exact h1 ▸ List.mem_cons_self a d
        · exact List.mem_cons_of_mem a (ih (i + 1) r h1)

theorem getD_mem_of_lt {d : List Record} {i : Nat} (h : i < d.length) :
    d.getD i [] ∈ d := by
  rw [List.getD_eq_getElem?_getD, List.getElem?_eq_getElem h]
  exact List.getElem_mem h

theorem applyCellUpdate_cases (d : List Record) (u : CellUpdate) :
    applyCellUpdate d u = d ∨
    (0 ≤ u.rowIndex ∧ u.rowIndex.toNat < d.length ∧
      applyCellUpdate d u =
        d.set u.rowIndex.toNat
          (setKey (d.getD u.rowIndex.toNat []) u.column (.s u.value))) := by
  unfold applyCellUpdate
  split_ifs with hg
  · exact Or.inr ⟨hg.1, hg.2, rfl⟩
  · exact Or.inl rfl

theorem batchUpdateData_homogeneous (us : List CellUpdate) :
    ∀ d : List Record, Homogeneous d →
      (∀ u ∈ us, ∀ r ∈ d, hasCol r u.column = true) →
      Homogeneous (batchUpdateData us d) := by
  induction us with
  | nil => exact fun d h _ => h
  | cons u us ih =>
      intro d h hsafe
      show Homogeneous (batchUpdateData us (applyCellUpdate d u))
      have hu := hsafe u (List.mem_cons_self u us)
      rcases applyCellUpdate_cases d u with heq | ⟨h0, hlen, heq⟩
      · rw [heq]
        exact ih d h (fun u2 hu2 => hsafe u2 (List.mem_cons_of_mem u hu2))
      · have hbase : d.getD u.rowIndex.toNat [] ∈ d := getD_mem_of_lt hlen
        have hbcol : hasCol (d.getD u.rowIndex.toNat []) u.column = true := hu _ hbase
        have hrow : ∀ c2,
            hasCol (setKey (d.getD u.rowIndex.toNat []) u.column (.s u.value)) c2 =
              hasCol (d.getD u.rowIndex.toNat []) c2 :=
          fun c2 => hasCol_setKey_of_present _ _ _ _ hbcol
        have hmem : ∀ r ∈ applyCellUpdate d u, ∀ c2,
            ∃ r0 ∈ d, hasCol r c2 = hasCol r0 c2 := by
          intro r hr c2
          rw [heq] at hr
          rcases List.mem_or_eq_of_mem_set hr with hm | rfl
          · exact ⟨r, hm, rfl⟩
          · exact ⟨_, hbase, hrow c2⟩
        apply ih
        · intro r1 h1 r2 h2 c2
          obtain ⟨r01, hm1, he1⟩ := hmem r1 h1 c2
          obtain ⟨r02, hm2, he2⟩ := hmem r2 h2 c2
          rw [he1, he2, h r01 hm1 r02 hm2 c2]
        · intro u2 hu2 r hr
          obtain ⟨r0, hm0, he0⟩ := hmem r hr u2.column
          rw [he0]
          exact hsafe u2 (List.mem_cons_of_mem u hu2) r0 hm0

unseal Rat.add in
/-- C3: calculate_aggregate is a read-only query: the returned Dataset is
always identical to the input Dataset; on the three row demonstration
Dataset the filtered sum over region North reports 100 and the Dataset
still has three rows; the average over an empty filtered set is NaN, the
0 / 0 of JavaScript division. -/
theorem calculate_aggregate_readonly :
    (∀ (s : AppState) (col op : String) (fc fv : Option String),
      (handleSheetAction (.calculate_aggregate col op fc fv) s).sheetData = s.sheetData)
    ∧ calcAggregate demoRows "sales" "sum" (some "region") (some "North") = .q 100
    ∧ (handleSheetAction
        (.calculate_aggregate "sales" "sum" (some "region") (some "North"))
        demoState).sheetData.length = 3
    ∧ calcAggregate demoRows "sales" "average" (some "region") (some "West") = .nan :=
  ⟨fun _ _ _ _ _ => rfl, by decide, by decide, by decide⟩

/-- C5 (code bug): update_cell with a row index at or past the row count
does create rows: on a one row Dataset, update_cell at row index 3 yields
a Dataset of four rows (two holes and a one field row), because the
JavaScript array write at an index past the length extends the array. -/
theorem update_cell_out_of_bounds_creates_rows :
    oneRowState.sheetData.length = 1 ∧
    ((handleSheetAction (.update_cell 3 "sales" "5") oneRowState).sheetData).length = 4 := by
  decide

/-- C6: for every attempt the delay excluding jitter is the capped
exponential min(2000 * 2 to the n, 32000), equal to 2000, 4000 and 8000
milliseconds for attempts 0, 1 and 2, and for every random sample in the
unit interval the full delay lies in the half open interval from the
exponential delay to the exponential delay plus 1000. -/
theorem retry_backoff_bounds :
    exponentialDelay 0 = 2000 ∧ exponentialDelay 1 = 4000 ∧ exponentialDelay 2 = 8000 ∧
    (∀ n : ℕ, exponentialDelay n = min (2000 * 2 ^ n) 32000) ∧
    (∀ (n : ℕ) (r : ℚ), 0 ≤ r → r < 1 →
      exponentialDelay n ≤ getRetryDelay n r ∧
        getRetryDelay n r < exponentialDelay n + 1000) := by
  refine ⟨?_, ?_, ?_, ?_, ?_⟩
  · norm_num [exponentialDelay, BASE_DELAY, MAX_DELAY]
  · norm_num [exponentialDelay, BASE_DELAY, MAX_DELAY]
  · norm_num [exponentialDelay, BASE_DELAY, MAX_DELAY]
  · intro n
    simp [exponentialDelay, BASE_DELAY, MAX_DELAY]
  · intro n r h0 h1
    constructor
    · have hj : 0 ≤ r * 1000 := mul_nonneg h0 (by norm_num)
      rw [getRetryDelay]
      linarith
    · have hj : r * 1000 < 1000 := by nlinarith
      rw [getRetryDelay]
      linarith

/-- Witness for the retry backoff bounds at attempt 1 with random sample
0. -/
theorem retry_backoff_bounds_witness :
    (0 : ℚ) ≤ 0 ∧ (0 : ℚ) < 1 ∧
    exponentialDelay 1 ≤ getRetryDelay 1 0 ∧
    getRetryDelay 1 0 < exponentialDelay 1 + 1000 :=
  ⟨le_refl 0, by norm_num,
    (retry_backoff_bounds.2.2.2.2 1 0 (le_refl 0) (by norm_num)).1,
    (retry_backoff_bounds.2.2.2.2 1 0 (le_refl 0) (by norm_num)).2⟩

/-- C7 counterexample: a message containing 429 together with 503 is
classified as network, not rate_limit, because the 503/overloaded test
runs first in the if-else-if chain. -/
theorem terminal_classification_cex :
    jsIncludes "error 503 429" "429" = true ∧
    classifyError "error 503 429" = ("network", true) ∧
    (classifyError "error 503 429").1 ≠ "rate_limit" := by
  decide

/-- C7 amended: a message containing 429 but neither 503 nor overloaded is
classified rate_limit with canRetry true; a message containing quota but
none of 503, overloaded and 429 is classified quota with canRetry false;
and whenever the classification is quota, canRetry is false. -/
theorem terminal_classification_amended :
    ∀ msg : String,
      (jsIncludes msg "503" = false → jsIncludes msg "overloaded" = false →
        jsIncludes msg "429" = true → classifyError msg = ("rate_limit", true)) ∧
      (jsIncludes msg "503" = false → jsIncludes msg "overloaded" = false →
        jsIncludes msg "429" = false → jsIncludes msg "quota" = true →
        classifyError msg = ("quota", false)) ∧
      ((classifyError msg).1 = "quota" → (classifyError msg).2 = false) := by
  intro msg
  refine ⟨fun h1 h2 h3 => ?_, fun h1 h2 h3 h4 => ?_, ?_⟩
  · simp [classifyError, h1, h2, h3]
  · simp [classifyError, h1, h2, h3, h4]
  · unfold classifyError
    split_ifs <;> simp

/-- Witness for the amended terminal classification on a pure rate limit
message. -/
theorem terminal_classification_amended_witness :
    jsIncludes "too many requests 429" "503" = false ∧
    jsIncludes "too many requests 429" "overloaded" = false ∧
    jsIncludes "too many requests 429" "429" = true ∧
    classifyError "too many requests 429" = ("rate_limit", true) :=
  ⟨by decide, by decide, by decide,
    (terminal_classification_amended "too many requests 429").1
      (by decide) (by decide) (by decide)⟩

/-- C8: an utterance whose lowercased text contains chart but none of bar,
line and pie makes getAIResponse return the clarifying question before the
retry loop: the result carries no Action and no model call is attempted. -/
theorem chart_guard_short_circuits :
    ∀ input : String,
      jsIncludes (jsToLower input) "chart" = true →
      jsIncludes (jsToLower input) "bar" = false →
      jsIncludes (jsToLower input) "line" = false →
      jsIncludes (jsToLower input) "pie" = false →
      getAIResponsePre true input =
        .clarifyChart "What type of chart would you like to generate? (e.g., bar, line, pie)" := by
  intro input h1 h2 h3 h4
  simp [getAIResponsePre, chartGuard, h1, h2, h3, h4]

/-- Witness for the chart guard on a concrete utterance. -/
theorem chart_guard_short_circuits_witness :
    jsIncludes (jsToLower "Make me a chart") "chart" = true ∧
    jsIncludes (jsToLower "Make me a chart") "bar" = false ∧
    jsIncludes (jsToLower "Make me a chart") "line" = false ∧
    jsIncludes (jsToLower "Make me a chart") "pie" = false ∧
    getAIResponsePre true "Make me a chart" =
      .clarifyChart "What type of chart would you like to generate? (e.g., bar, line, pie)" :=
  ⟨by decide, by decide, by decide, by decide,
    chart_guard_short_circuits "Make me a chart" (by decide) (by decide) (by decide) (by decide)⟩

/-- C9 counterexample: an action name outside the catalog reaches the
default case, which only writes a console warning: the chat transcript and
the notification are unchanged, so no user visible notice is surfaced,
while the dataset is indeed left unchanged. -/
theorem unknown_action_cex :
    (handleSheetAction (.unknown "foo_tool") demoState).messages = demoState.messages ∧
    (handleSheetAction (.unknown "foo_tool") demoState).notification = demoState.notification ∧
    (handleSheetAction (.unknown "foo_tool") demoState).sheetData = demoState.sheetData ∧
    (handleSheetAction (.unknown "foo_tool") demoState).consoleLogs =
      demoState.consoleLogs ++ ["Unknown action: foo_tool"] :=
  ⟨rfl, rfl, rfl, rfl⟩

/-- C9 amended: an unknown action is logged to the developer console and
leaves every other part of the state, in particular the Dataset, the chat
transcript and the notification, unchanged; no user visible notice is
produced. -/
theorem unknown_action_amended :
    ∀ (s : AppState) (name : String),
      handleSheetAction (.unknown name) s =
        { s with consoleLogs := s.consoleLogs ++ ["Unknown action: " ++ name] } :=
  fun _ _ => rfl

/-- C10: a user input that trims and lowercases to reset is intercepted
before the gateway: the outcome is the reset return (no model call), the
dataset is restored to the original data captured at startup, and the
filter and sort state are cleared. -/
theorem reset_intercepts_gateway :
    ∀ (s : AppState) (input : String),
      jsTrim input ≠ "" →
      jsTrim (jsToLower input) = "reset" →
      (handleSendMessagePre input s).1 = .resetDone ∧
      (handleSendMessagePre input s).2.sheetData = s.originalData ∧
      (handleSendMessagePre input s).2.filterState = (none, "") ∧
      (handleSendMessagePre input s).2.sortState = (none, none) := by
  intro s input h1 h2
  simp [handleSendMessagePre, h1, h2, addToHistory, showNotification]

/-- Witness for the reset interception on the padded mixed case input. -/
theorem reset_intercepts_gateway_witness :
    jsTrim "  Reset " ≠ "" ∧
    jsTrim (jsToLower "  Reset ") = "reset" ∧
    (handleSendMessagePre "  Reset " demoState).1 = .resetDone ∧
    (handleSendMessagePre "  Reset " demoState).2.sheetData = demoState.originalData :=
  ⟨by decide, by decide,
    (reset_intercepts_gateway demoState "  Reset " (by decide) (by decide)).1,
    (reset_intercepts_gateway demoState "  Reset " (by decide) (by decide)).2.1⟩

theorem applyCellUpdate_length (d : List Record) (u : CellUpdate) :
    (applyCellUpdate d u).length = d.length := by
  unfold applyCellUpdate
  split_ifs
  · exact List.length_set d _ _
  · rfl

theorem applyCellUpdate_getCell_target (d : List Record) (u : CellUpdate) (i : Nat)
    (hidx : u.rowIndex = (i : Int)) (hlen : i < d.length) :
    getCell (applyCellUpdate d u) i u.column = some (.s u.value) := by
  have htn : u.rowIndex.toNat = i := by omega
  have hg : 0 ≤ u.rowIndex ∧ u.rowIndex.toNat < d.length := by
    constructor
    · omega
    · omega
  rw [applyCellUpdate, if_pos hg, htn, getCell, List.getD_eq_getElem?_getD,
    List.getElem?_set_self hlen]
  simp [jsGet_setKey_self]

theorem applyCellUpdate_getCell_other (d : List Record) (u : CellUpdate) (i : Nat)
    (c : String) (hno : ¬ (u.rowIndex = (i : Int) ∧ u.column = c)) :
    getCell (applyCellUpdate d u) i c = getCell d i c := by
  rw [applyCellUpdate]
  split_ifs with hg
  · by_cases hj : u.rowIndex.toNat = i
    · have hidx : u.rowIndex = (i : Int) := by omega
      have hc : ¬ c = u.column := fun hcc => hno ⟨hidx, hcc.symm⟩
      have hilen : i < d.length := by omega
      rw [hj, getCell, getCell, List.getD_eq_getElem?_getD,
        List.getElem?_set_self hilen]
      simp only [Option.getD_some]
      rw [jsGet_setKey_ne _ _ _ _ hc, List.getD_eq_getElem?_getD]
    · rw [getCell, getCell, List.getD_eq_getElem?_getD, List.getD_eq_getElem?_getD,
        List.getElem?_set_ne hj, List.getD_eq_getElem?_getD]
  · rfl

theorem batchUpdateData_getCell (i : Nat) (c : String) :
    ∀ (us : List CellUpdate) (d : List Record), i < d.length →
      getCell (batchUpdateData us d) i c =
        (match (us.filter
            (fun u => u.rowIndex == (i : Int) && u.column == c)).getLast? with
         | some u => some (.s u.value)
         | none => getCell d i c) := by
  intro us
  induction us with
  | nil => intro d _; rfl
  | cons u us ih =>
      intro d h
      have hlen : i < (applyCellUpdate d u).length := by
        rw [applyCellUpdate_length]; exact h
      show getCell (batchUpdateData us (applyCellUpdate d u)) i c = _
      rw [ih (applyCellUpdate d u) hlen]
      by_cases hmatch : (u.rowIndex == (i : Int) && u.column == c) = true
      · have hfil : List.filter (fun u => u.rowIndex == (i : Int) && u.column == c)
            (u :: us) =
            u :: List.filter (fun u => u.rowIndex == (i : Int) && u.column == c) us :=
          List.filter_cons_of_pos hmatch
        rw [hfil]
        cases hlast : (us.filter
            (fun u => u.rowIndex == (i : Int) && u.column == c)).getLast? with
        | some w => rw [List.getLast?_cons, hlast]; rfl
        | none =>
            rw [List.getLast?_cons, hlast]
            simp only [Option.getD_none]
            have hui : u.rowIndex = (i : Int) := by
              have := (Bool.and_eq_true _ _).mp hmatch
              exact beq_iff_eq.mp this.1
            have huc : u.column = c := by
              have := (Bool.and_eq_true _ _).mp hmatch
              exact beq_iff_eq.mp this.2
            rw [← huc]
            exact applyCellUpdate_getCell_target d u i hui h
      · have hfil : List.filter (fun u => u.rowIndex == (i : Int) && u.column == c)
            (u :: us) =
            List.filter (fun u => u.rowIndex == (i : Int) && u.column == c) us :=
          List.filter_cons_of_neg hmatch
        rw [hfil]
        have hno : ¬ (u.rowIndex = (i : Int) ∧ u.column = c) := by
          intro hcc
          exact hmatch (by simp [hcc.1, hcc.2])
        cases hlast : (us.filter
            (fun u => u.rowIndex == (i : Int) && u.column == c)).getLast? with
        | some w => rfl
        | none => exact applyCellUpdate_getCell_other d u i c hno

/-- C1 counterexample: a homogeneous two row Dataset stops being
homogeneous after a successful batch_update that writes a fresh column,
because the spread assignment adds the column only to the targeted row. -/
theorem column_homogeneity_cex :
    Homogeneous twoRowState.sheetData ∧
    ¬ Homogeneous
        (handleSheetAction (.batch_update [⟨0, "tax", "1"⟩]) twoRowState).sheetData := by
  constructor
  · intro r1 h1 r2 h2 c
    have key : ∀ r ∈ twoRowState.sheetData, ∀ c2 : String,
        hasCol r c2 = decide (c2 = "sales") := by
      intro r hr c2
      have hm : r = [("sales", Value.n (.q 100))] ∨ r = [("sales", Value.n (.q 200))] := by
        simpa [twoRowState, twoRows, demoState, List.mem_cons] using hr
      rcases hm with rfl | rfl <;>
        · by_cases hc : "sales" = c2
          · simp [hasCol, jsGet, hc]
          · have hc2 : ¬ c2 = "sales" := fun hh => hc hh.symm
            simp [hasCol, jsGet, hc, hc2]
    rw [key r1 h1 c, key r2 h2 c]
  · intro h
    have hres : (handleSheetAction (.batch_update [⟨0, "tax", "1"⟩]) twoRowState).sheetData =
        [[("sales", Value.n (.q 100)), ("tax", Value.s "1")],
         [("sales", Value.n (.q 200))]] := by decide
    have h1 : [("sales", Value.n (.q 100)), ("tax", Value.s "1")] ∈
        (handleSheetAction (.batch_update [⟨0, "tax", "1"⟩]) twoRowState).sheetData := by
      rw [hres]; exact List.mem_cons_self _ _
    have h2 : [("sales", Value.n (.q 200))] ∈
        (handleSheetAction (.batch_update [⟨0, "tax", "1"⟩]) twoRowState).sheetData := by
      rw [hres]; simp
    exact absurd (h _ h1 _ h2 "tax") (by decide)

/-- C1 amended: column homogeneity is preserved by sort_data, filter_data,
delete_rows, delete_columns, add_column and all read-only or
metadata-only actions unconditionally; by update_cell when the row index
is in bounds and the column already exists in every Record (or the index
is negative, which leaves the array untouched); by batch_update when
every targeted column already exists in every Record; and by add_row when
the Dataset still carries exactly the six fixed schema columns.  Outside
those side conditions the engine can and does break homogeneity. -/
theorem mutation_preserves_homogeneity :
    ∀ (s : AppState) (a : Action),
      Homogeneous s.sheetData → ColSafe a s.sheetData →
      Homogeneous (handleSheetAction a s).sheetData := by
  intro s a h hsafe
  cases a with
  | sort_data col ord =>
      exact homogeneous_of_subset (fun r hr => List.mem_mergeSort.mp hr) h
  | calculate_aggregate col op fc fv => exact h
  | filter_data col v =>
      exact homogeneous_of_subset (fun r hr => (List.mem_filter.mp hr).1) h
  | add_row m p rg sa co pr =>
      intro r1 h1 r2 h2 c
      have key : ∀ r ∈ s.sheetData ++ [newRowOf m p rg sa co pr],
          hasCol r c = sixCols.contains c := by
        intro r hr
        rcases List.mem_append.mp hr with hm | hm
        · exact hsafe r hm c
        · rw [List.mem_singleton.mp hm]
          exact hasCol_newRowOf m p rg sa co pr c
      rw [key r1 h1, key r2 h2]
  | update_cell i c v =>
      rcases hsafe with hneg | ⟨hi0, hilen, hcol⟩
      · have hdata : (handleSheetAction (.update_cell i c v) s).sheetData = s.sheetData := by
          show jsSetRowAt s.sheetData i _ = s.sheetData
          rw [jsSetRowAt, if_pos hneg]
        rw [hdata]; exact h
      · have hbasemem : jsRowAt s.sheetData i ∈ s.sheetData := by
          rw [jsRowAt, if_pos ⟨hi0, hilen⟩]
          exact getD_mem_of_lt hilen
        have hbcol : hasCol (jsRowAt s.sheetData i) c = true := hcol _ hbasemem
        have hrow : ∀ c2,
            hasCol (setKey (jsRowAt s.sheetData i) c (updateCellValue c v)) c2 =
              hasCol (jsRowAt s.sheetData i) c2 :=
          fun c2 => hasCol_setKey_of_present _ _ _ _ hbcol
        have hdata : (handleSheetAction (.update_cell i c v) s).sheetData =
            s.sheetData.set i.toNat
              (setKey (jsRowAt s.sheetData i) c (updateCellValue c v)) := by
          show jsSetRowAt s.sheetData i _ = _
          rw [jsSetRowAt, if_neg (not_lt.mpr hi0), if_pos hilen]
        rw [hdata]
        intro r1 h1 r2 h2 c2
        have key : ∀ r, (r ∈ s.sheetData ∨
            r = setKey (jsRowAt s.sheetData i) c (updateCellValue c v)) →
            hasCol r c2 = hasCol (jsRowAt s.sheetData i) c2 := by
          rintro r (hm | rfl)
          · exact h r hm _ hbasemem c2
          · exact hrow c2
        rw [key r1 (List.mem_or_eq_of_mem_set h1), key r2 (List.mem_or_eq_of_mem_set h2)]
  | find_top_n col n => exact h
  | generate_chart ct t => exact h
  | delete_rows idxs =>
      exact homogeneous_of_subset (fun r hr => deleteRowsData_subset idxs 0 s.sheetData r hr) h
  | delete_columns names =>
      exact homogeneous_map (t := fun c b => b && !names.contains c)
        (fun r _ c => hasCol_delKeyFold names r c) h
  | clear_filter => exact h
  | add_column name dv =>
      exact homogeneous_map (t := fun c b => b || c == name)
        (fun r _ c => hasCol_setKey r name c _) h
  | batch_update us => exact batchUpdateData_homogeneous us s.sheetData h hsafe
  | rename_sheet nn =>
      cases hfi : s.sheets.findIdx? (· = s.activeSheet) with
      | none => simpa [handleSheetAction, hfi] using h
      | some idx =>
          simpa [handleSheetAction, hfi, addToHistory, showNotification, pushMsg] using h
  | duplicate_sheet nn => exact h
  | pivot_table => exact h
  | create_chart => exact h
  | format_cells => exact h
  | merge_cells => exact h
  | apply_formula => exact h
  | unknown nm => exact h

/-- Witness for the amended homogeneity invariant on the demonstration
state with the unconditional clear_filter action. -/
theorem mutation_preserves_homogeneity_witness :
    Homogeneous demoState.sheetData ∧
    ColSafe .clear_filter demoState.sheetData ∧
    Homogeneous (handleSheetAction .clear_filter demoState).sheetData := by
  have hhom : Homogeneous demoState.sheetData := by
    intro r1 h1 r2 h2 c
    have key : ∀ r ∈ demoState.sheetData, ∀ c2 : String,
        hasCol r c2 = (decide ("region" = c2) || decide ("sales" = c2)) := by
      intro r hr c2
      have hm : r = [("region", Value.s "North"), ("sales", Value.n (.q 100))] ∨
          r = [("region", Value.s "South"), ("sales", Value.n (.q 200))] ∨
          r = [("region", Value.s "East"), ("sales", Value.n (.q 300))] := by
        simpa [demoState, demoRows, List.mem_cons] using hr
      rcases hm with rfl | rfl | rfl <;>
        · by_cases hc1 : "region" = c2
          · simp [hasCol, jsGet, hc1]
          · by_cases hc2 : "sales" = c2 <;> simp [hasCol, jsGet, hc1, hc2]
    rw [key r1 h1 c, key r2 h2 c]
  exact ⟨hhom, trivial,
    mutation_preserves_homogeneity demoState .clear_filter hhom trivial⟩

/-- C2: batch_update applies its updates sequentially in listed order, so
for every in-bounds cell the final value is the value of the last listed
update targeting that cell (and the cell is untouched when no update
targets it); in particular two updates of the sales cell of row 0 with
values 10 then 20 leave the raw string 20 in that cell. -/
theorem batch_update_last_write :
    (∀ (s : AppState) (us : List CellUpdate) (i : Nat) (c : String),
      i < s.sheetData.length →
      getCell (handleSheetAction (.batch_update us) s).sheetData i c =
        (match (us.filter
            (fun u => u.rowIndex == (i : Int) && u.column == c)).getLast? with
         | some u => some (.s u.value)
         | none => getCell s.sheetData i c))
    ∧ getCell (handleSheetAction
        (.batch_update [⟨0, "sales", "10"⟩, ⟨0, "sales", "20"⟩])
        oneRowState).sheetData 0 "sales" = some (.s "20") := by
  constructor
  · intro s us i c h
    exact batchUpdateData_getCell i c us s.sheetData h
  · decide

/-- Witness for the batch_update ordering theorem on the one row state. -/
theorem batch_update_last_write_witness :
    0 < oneRowState.sheetData.length ∧
    getCell (handleSheetAction
        (.batch_update [⟨0, "sales", "10"⟩, ⟨0, "sales", "20"⟩])
        oneRowState).sheetData 0 "sales" =
      (match (([⟨0, "sales", "10"⟩, ⟨0, "sales", "20"⟩] : List CellUpdate).filter
          (fun u => u.rowIndex == ((0 : Nat) : Int) && u.column == "sales")).getLast? with
       | some u => some (.s u.value)
       | none => getCell oneRowState.sheetData 0 "sales") :=
  ⟨by decide,
    batch_update_last_write.1 oneRowState
      [⟨0, "sales", "10"⟩, ⟨0, "sales", "20"⟩] 0 "sales" (by decide)⟩

theorem filterMapComm {β : Type} (l : List β) (f : β → Record) (p : Record → Bool) :
    (l.filter (fun b => p (f b))).map f = (l.map f).filter p := by
  induction l with
  | nil => rfl
  | cons a l ih =>
      by_cases h : p (f a) <;> simp [List.filter_cons, h, ih]

theorem stable_filter_of_key {κ : Type} [LinearOrder κ] (d : List Record)
    (leB : Record → Record → Bool) (key : Record → κ)
    (hagree : ∀ a ∈ d, ∀ b ∈ d, leB a b = decide (key a ≤ key b))
    (p : Record → Bool)
    (hp : ∀ a ∈ d, ∀ b ∈ d, p a = true → p b = true → key a = key b) :
    (d.mergeSort leB).filter p = d.filter p := by
  have hl : ∀ a ∈ d.attach, ∀ b ∈ d.attach,
      (fun (a b : {r : Record // r ∈ d}) => decide (key a.1 ≤ key b.1)) a b =
        leB a.1 b.1 :=
    fun a _ b _ => (hagree a.1 a.2 b.1 b.2).symm
  have hmap : (d.attach.mergeSort
        (fun a b => decide (key a.1 ≤ key b.1))).map Subtype.val =
      (d.attach.map Subtype.val).mergeSort leB := List.map_mergeSort hl
  rw [List.attach_map_subtype_val] at hmap
  have hpair : (d.attach.filter (fun a => p a.1)).Pairwise
      (fun a b => (decide (key a.1 ≤ key b.1)) = true) := by
    apply List.pairwise_of_forall_mem_list
    intro a ha b hb
    have hpa := (List.mem_filter.mp ha).2
    have hpb := (List.mem_filter.mp hb).2
    have hk := hp a.1 a.2 b.1 b.2 hpa hpb
    simp [hk]
  have htrans : ∀ (a b c3 : {r : Record // r ∈ d}),
      decide (key a.1 ≤ key b.1) = true → decide (key b.1 ≤ key c3.1) = true →
      decide (key a.1 ≤ key c3.1) = true := by
    intro a b c3 hab hbc
    simp only [decide_eq_true_eq] at hab hbc ⊢
    exact le_trans hab hbc
  have htotal : ∀ (a b : {r : Record // r ∈ d}),
      (decide (key a.1 ≤ key b.1) || decide (key b.1 ≤ key a.1)) = true := by
    intro a b
    simp [le_total]
  have hsub : List.Sublist (d.attach.filter (fun a => p a.1))
      (d.attach.mergeSort (fun a b => decide (key a.1 ≤ key b.1))) :=
    List.sublist_mergeSort htrans htotal hpair (List.filter_sublist _)
  have hsubmap : List.Sublist ((d.attach.filter (fun a => p a.1)).map Subtype.val)
      (d.mergeSort leB) := by
    rw [← hmap]
    exact hsub.map Subtype.val
  have hcmap : (d.attach.filter (fun a => p a.1)).map Subtype.val = d.filter p := by
    rw [filterMapComm, List.attach_map_subtype_val]
  rw [hcmap] at hsubmap
  have hperm : ((d.mergeSort leB).filter p).Perm (d.filter p) :=
    (List.mergeSort_perm d leB).filter p
  have hsub2 : List.Sublist (d.filter p) ((d.mergeSort leB).filter p) := by
    have h3 := List.Sublist.filter p hsubmap
    have h4 : (d.filter p).filter p = d.filter p := by
      rw [List.filter_filter]
      congr 1
      funext a
      exact Bool.and_self (p a)
    rwa [h4] at h3
  exact (hsub2.eq_of_length hperm.length_eq.symm).symm

theorem cmpNum_asc {κ : Type} [LinearOrder κ] (x y : κ) :
    decide ((if y < x then (1 : Int) else if x < y then -1 else 0) ≤ 0) =
      decide (x ≤ y) := by
  rcases lt_trichotomy x y with h | h | h
  · have h1 : ¬ y < x := asymm h
    simp [h, h1, le_of_lt h]
  · subst h
    simp [lt_irrefl]
  · have h1 : ¬ x < y := asymm h
    simp [h, h1, not_le.mpr h]

theorem cmpNum_desc {κ : Type} [LinearOrder κ] (x y : κ) :
    decide (-(if y < x then (1 : Int) else if x < y then -1 else 0) ≤ 0) =
      decide (y ≤ x) := by
  rcases lt_trichotomy x y with h | h | h
  · have h1 : ¬ y < x := asymm h
    simp [h, h1, not_le.mpr h]
  · subst h
    simp [lt_irrefl]
  · have h1 : ¬ x < y := asymm h
    simp [h, h1, le_of_lt h]

theorem cmpStr_asc (x y : String) :
    decide ((if x < y then (-1 : Int) else if y < x then 1 else 0) ≤ 0) =
      decide (x ≤ y) := by
  rcases lt_trichotomy x y with h | h | h
  · simp [h, le_of_lt h]
  · subst h
    simp [lt_irrefl]
  · have h1 : ¬ x < y := asymm h
    simp [h, h1, not_le.mpr h]

theorem cmpStr_desc (x y : String) :
    decide (-(if x < y then (-1 : Int) else if y < x then 1 else 0) ≤ 0) =
      decide (y ≤ x) := by
  rcases lt_trichotomy x y with h | h | h
  · simp [h, not_le.mpr h]
  · subst h
    simp [lt_irrefl]
  · have h1 : ¬ x < y := asymm h
    simp [h, h1, le_of_lt h]

theorem sortCmp_of_str {col : String} {a b : Record} {x y : String}
    (ha : jsGet a col = some (.s x)) (hb : jsGet b col = some (.s y)) :
    sortCmp col a b = (if x < y then (-1 : Int) else if y < x then 1 else 0) := by
  simp only [sortCmp, ha, hb, localeCmp]

theorem sortCmp_of_num {col : String} {a b : Record} {x y : ℚ}
    (ha : jsGet a col = some (.n (.q x))) (hb : jsGet b col = some (.n (.q y))) :
    sortCmp col a b = (if y < x then (1 : Int) else if x < y then -1 else 0) := by
  simp only [sortCmp, ha, hb, toJN, jgtB, jltB]
  simp

theorem sortData_stable_of_typed (col : String) (asc : Bool) (d : List Record)
    (v : Option Value) (hcase : StrCol d col ∨ NumCol d col) :
    (sortData col asc d).filter (fun r => decide (jsGet r col = v)) =
      d.filter (fun r => decide (jsGet r col = v)) := by
  rw [sortData]
  rcases hcase with hty | hty
  · cases asc with
    | true =>
        apply stable_filter_of_key d _ (strKey col)
        · intro a ha b hb
          obtain ⟨x, hx⟩ := hty a ha
          obtain ⟨y, hy⟩ := hty b hb
          rw [if_pos rfl, sortCmp_of_str hx hy, cmpStr_asc, strKey, hx, strKey, hy]
        · intro a ha b hb hpa hpb
          rw [strKey, of_decide_eq_true hpa, strKey, of_decide_eq_true hpb]
    | false =>
        apply stable_filter_of_key d _ (fun r => OrderDual.toDual (strKey col r))
        · intro a ha b hb
          obtain ⟨x, hx⟩ := hty a ha
          obtain ⟨y, hy⟩ := hty b hb
          rw [if_neg (by simp), sortCmp_of_str hx hy, cmpStr_desc, strKey, hx, strKey, hy]
          simp
        · intro a ha b hb hpa hpb
          have : strKey col a = strKey col b := by
            rw [strKey, of_decide_eq_true hpa, strKey, of_decide_eq_true hpb]
          simp [this]
  · cases asc with
    | true =>
        apply stable_filter_of_key d _ (numKey col)
        · intro a ha b hb
          obtain ⟨x, hx⟩ := hty a ha
          obtain ⟨y, hy⟩ := hty b hb
          rw [if_pos rfl, sortCmp_of_num hx hy, cmpNum_asc, numKey, hx, numKey, hy]
        · intro a ha b hb hpa hpb
          rw [numKey, of_decide_eq_true hpa, numKey, of_decide_eq_true hpb]
    | false =>
        apply stable_filter_of_key d _ (fun r => OrderDual.toDual (numKey col r))
        · intro a ha b hb
          obtain ⟨x, hx⟩ := hty a ha
          obtain ⟨y, hy⟩ := hty b hb
          rw [if_neg (by simp), sortCmp_of_num hx hy, cmpNum_desc, numKey, hx, numKey, hy]
          simp
        · intro a ha b hb hpa hpb
          have : numKey col a = numKey col b := by
            rw [numKey, of_decide_eq_true hpa, numKey, of_decide_eq_true hpb]
          simp [this]

/-- C4: sort_data is stable: over a text column or a numeric column (the
two column shapes of the data model), the records holding any fixed value
in the sort column appear in the sorted Dataset in their original relative
order, for both sort orders; in particular the two tied records of the
spec example keep the id order a then b under an ascending sort on x. -/
theorem sort_data_stable :
    (∀ (s : AppState) (col ord : String) (v : Option Value),
      StrCol s.sheetData col ∨ NumCol s.sheetData col →
      ((handleSheetAction (.sort_data col ord) s).sheetData).filter
          (fun r => decide (jsGet r col = v)) =
        s.sheetData.filter (fun r => decide (jsGet r col = v)))
    ∧ (handleSheetAction (.sort_data "x" "ascending") tiedState).sheetData =
        [tiedRowA, tiedRowB] := by
  constructor
  · intro s col ord v hcase
    exact sortData_stable_of_typed col (decide (ord = "ascending")) s.sheetData v hcase
  · show sortData "x" (decide ("ascending" = "ascending")) [tiedRowA, tiedRowB] =
      [tiedRowA, tiedRowB]
    rw [sortData]
    apply List.mergeSort_of_sorted
    decide

/-- Witness for the stability theorem: a numeric column with a duplicated
value on the tied two record state. -/
theorem sort_data_stable_witness :
    (StrCol tiedState.sheetData "x" ∨ NumCol tiedState.sheetData "x") ∧
    ((handleSheetAction (.sort_data "x" "ascending") tiedState).sheetData).filter
        (fun r => decide (jsGet r "x" = some (.n (.q 1)))) =
      tiedState.sheetData.filter
        (fun r => decide (jsGet r "x" = some (.n (.q 1)))) := by
  have hnum : NumCol tiedState.sheetData "x" := by
    intro r hr
    have hm : r = tiedRowA ∨ r = tiedRowB := by
      simpa [tiedState, demoState, List.mem_cons] using hr
    rcases hm with rfl | rfl
    · exact ⟨1, rfl⟩
    · exact ⟨1, rfl⟩
  exact ⟨Or.inr hnum,
    sort_data_stable.1 tiedState "x" "ascending" (some (.n (.q 1))) (Or.inr hnum)⟩

end VectorSheets
